import Mathlib

/-!
# Verification of the pyttd OpenTTD map-data parser

A shallow embedding of `pyttd/map_parser.py` (class `MapDataParser`) and
proofs about it. Bytes are modelled as `Nat` (Python `bytes` elements are
0–255); byte strings as `List Nat`. Python's bitmask operations on bytes are
rendered arithmetically, which agrees with the bitwise reading on every `Nat`:
`b & 0x7F = b % 128` and `b & 0x80 ≠ 0 ↔ b / 128 % 2 = 1`.

Python exceptions are modelled as `Except` where they can actually occur
(only `_decompress_map_data` raises: every index and slice in
`_parse_chunks` is guarded by an explicit bounds check first, Python slices
never raise, `_parse_chunk` swallows all exceptions internally, and
`VehicleType(v)` is always called with `v = byte % 6 ∈ [0, 5]`, a valid enum
value; hence the `except` arm of the chunk loop — the only place that
consults the 50,000-byte guard — is unreachable, and the `except` arm of
`_parse_savegame_data` is likewise unreachable).

The external LZMA/zlib codecs are deterministic functions of their input;
they are passed in as parameters `lzma` / `zlibD` of type
`List Nat → Except Unit (List Nat)`, so theorems quantified over them hold
for the real codecs.

Loops are embedded with an explicit fuel argument so that everything
evaluates by `decide`/`rfl`; `data.length + 1` fuel is proved sufficient
(each loop iteration strictly advances its offset, bounded by the stream
length).
-/

/-- OpenTTD vehicle-type codes (the `VehicleType` IntEnum): TRAIN = 0,
ROAD = 1, SHIP = 2, AIRCRAFT = 3, EFFECT = 4, DISASTER = 5. -/
def VehicleTypeTRAIN : Nat := 0

/-- The dataclass `ParsedVehicle` from the source, field for field. -/
structure ParsedVehicle where
  vehicle_id : Nat
  vehicle_type : Nat
  company_id : Nat
  engine_type : Nat
  x : Nat
  y : Nat
  z : Nat
  speed : Nat
  profit_this_year : Nat
  profit_last_year : Nat
  running_cost : Nat
  build_year : Nat
  reliability : Nat
  cargo_type : Nat
  cargo_capacity : Nat
  cargo_count : Nat
deriving DecidableEq, Repr

/-- The dataclass `ParsedStation` from the source (never constructed by the
parser: the `STNS` extractor is a placeholder). -/
structure ParsedStation where
  station_id : Nat
  company_id : Nat
  name : String
  x : Nat
  y : Nat
  facilities : Nat
  build_date : Nat
deriving DecidableEq, Repr

/-- The dataclass `ParsedIndustry` from the source (never constructed by the
parser: the `INDS` extractor is a placeholder). -/
structure ParsedIndustry where
  industry_id : Nat
  industry_type : Nat
  name : String
  x : Nat
  y : Nat
  production_rate : List Nat
  last_month_production : List Nat
  accepts_cargo : List Nat
  produces_cargo : List Nat
deriving DecidableEq, Repr

/-- The dataclass `ParsedCompany` from the source (never constructed by the
parser: the `PLYR` extractor is a placeholder). -/
structure ParsedCompany where
  company_id : Nat
  name : String
  manager_name : String
  money : Int
  loan : Int
  value : Int
  performance : Nat
  inaugurated_year : Nat
  is_ai : Bool
  vehicles_count : Nat
deriving DecidableEq, Repr

/-- The mutable fields of `MapDataParser` set in `__init__`. -/
structure ParserState where
  map_width : Nat
  map_height : Nat
  vehicles : List ParsedVehicle
  stations : List ParsedStation
  industries : List ParsedIndustry
  companies : List ParsedCompany
  tiles : List (List Nat)
deriving DecidableEq, Repr

/-- The state `__init__` produces: zero dimensions, empty collections. -/
def initState : ParserState :=
  ⟨0, 0, [], [], [], [], []⟩

/-- The dictionary `parse_map_data` returns on success, as a structure.
The `total_*` entries are stored values (computed as `len(...)` at
assembly time), mirroring the dict literal in the source. -/
structure MapSnapshot where
  map_width : Nat
  map_height : Nat
  vehicles : List ParsedVehicle
  stations : List ParsedStation
  industries : List ParsedIndustry
  companies : List ParsedCompany
  total_vehicles : Nat
  total_stations : Nat
  total_industries : Nat
  total_companies : Nat
deriving DecidableEq, Repr

/-- `struct.unpack('<I', data[i:i+4])`: little-endian 32-bit read at `i`.
Out-of-range positions read as 0 (every use in the source is
bounds-guarded, so the default is never consulted on the Python paths). -/
def le32At (data : List Nat) (i : Nat) : Nat :=
  data.getD i 0 + 256 * data.getD (i + 1) 0 + 65536 * data.getD (i + 2) 0 +
    16777216 * data.getD (i + 3) 0

/-- `struct.unpack(">I", data[:4])`: the big-endian 32-bit format tag. -/
def be32At (data : List Nat) (i : Nat) : Nat :=
  16777216 * data.getD i 0 + 65536 * data.getD (i + 1) 0 +
    256 * data.getD (i + 2) 0 + data.getD (i + 3) 0

/-- The byte string `b"VEHS"`. -/
def strVEHS : List Nat := [86, 69, 72, 83]

/-- The byte string `b"STNS"`. -/
def strSTNS : List Nat := [83, 84, 78, 83]

/-- The byte string `b"INDS"`. -/
def strINDS : List Nat := [73, 78, 68, 83]

/-- The byte string `b"PLYR"`. -/
def strPLYR : List Nat := [80, 76, 89, 82]

/-- The byte string `b"INDY"`. -/
def strINDY : List Nat := [73, 78, 68, 89]

/-- The byte string `b"MAP "`. -/
def strMAPSp : List Nat := [77, 65, 80, 32]

/-- The gamma-length loop of `_parse_chunks` (`while pos < len(data): byte =
data[pos]; length_bytes.append(byte & 0x7F); pos += 1; if not (byte & 0x80):
break`), acting on the bytes from the current position on. Returns the list
of low-7-bit values collected and the number of bytes consumed. -/
def gammaBytes : List Nat → List Nat × Nat
  | [] => ([], 0)
  | b :: rest =>
    if b / 128 % 2 = 1 then
      let r := gammaBytes rest
      (b % 128 :: r.1, r.2 + 1)
    else ([b % 128], 1)

/-- The accumulation `chunk_size |= byte << (7 * i)` over the collected
low-7-bit values: little-endian base-128 value of the list. -/
def gammaValue : List Nat → Nat
  | [] => 0
  | b :: rest => b + 128 * gammaValue rest

/-- One `ParsedVehicle` as built in `_parse_vehicles_chunk`: type and company
from the first two stride bytes, every other field a placeholder default
(`build_year = 1950`, `reliability = 100`, zero elsewhere). -/
def mkStrideVehicle (vid vtype company : Nat) : ParsedVehicle :=
  ⟨vid, vtype, company, 0, 0, 0, 0, 0, 0, 0, 0, 1950, 100, 0, 0, 0⟩

/-- The loop of `_parse_vehicles_chunk`: `while offset + 32 < len(data)`,
reading `vtype = data[offset] % 6` and `company = data[offset+1] % 16`,
skipping one byte if `company >= 16` (unreachable, kept from the source) and
otherwise appending a record and advancing 32 bytes. Fuel-indexed; offsets
advance by at least one per iteration, so `data.length + 1` fuel suffices. -/
def parseVehiclesFuel (data : List Nat) : Nat → Nat → Nat → List ParsedVehicle
  | 0, _, _ => []
  | fuel + 1, offset, vid =>
    if offset + 32 < data.length then
      let vtype := data.getD offset 0 % 6
      let company := data.getD (offset + 1) 0 % 16
      if 16 ≤ company then parseVehiclesFuel data fuel (offset + 1) vid
      else mkStrideVehicle vid vtype company ::
        parseVehiclesFuel data fuel (offset + 32) (vid + 1)
    else []

/-- `_parse_vehicles_chunk`, as the list of records it appends to
`self.vehicles` (its `vehicle_id` counter is a local variable starting at 0,
independent of the records already accumulated). -/
def parseVehiclesNew (data : List Nat) : List ParsedVehicle :=
  parseVehiclesFuel data (data.length + 1) 0 0

/-- `_parse_map_chunk`: with at least 8 body bytes, width and height are the
two little-endian 32-bit words; shorter bodies change nothing. -/
def parseMapChunk (data : List Nat) (st : ParserState) : ParserState :=
  if 8 ≤ data.length then
    { st with map_width := le32At data 0, map_height := le32At data 4 }
  else st

/-- `_parse_chunk`: dispatch on the 4-byte tag. `STNS`, `INDS` and `PLYR`
are logging-only placeholders; unrecognized tags are ignored. -/
def parseChunk (tag : List Nat) (body : List Nat) (st : ParserState) : ParserState :=
  if tag = strVEHS then { st with vehicles := st.vehicles ++ parseVehiclesNew body }
  else if tag = strSTNS then st
  else if tag = strINDS then st
  else if tag = strPLYR then st
  else if tag = strMAPSp then parseMapChunk body st
  else st

/-- Outcome of one iteration of the `_parse_chunks` loop body: `brk` for the
`break` statements, `skip1` for `current_offset += 1; continue`, and
`accept` carrying the tag, the chunk body and the next offset
(`data_offset + chunk_size`). -/
inductive ScanStep where
  | brk : ScanStep
  | skip1 : ScanStep
  | accept (tag : List Nat) (body : List Nat) (next : Nat) : ScanStep
deriving DecidableEq, Repr

/-- The `(chunk_size, data_offset)` computation of `_parse_chunks`, keyed on
the type byte `data[co + 4]`: `0xFF` reads a 4-byte little-endian length at
`co + 5`; a set high bit runs the gamma loop from `co + 5`; otherwise the
type byte itself is the length and the body starts at `co + 5`. -/
def chunkSizeOff (data : List Nat) (co : Nat) : Nat × Nat :=
  if data.getD (co + 4) 0 = 255 then (le32At data (co + 5), co + 9)
  else if data.getD (co + 4) 0 / 128 % 2 = 1 then
    (gammaValue (gammaBytes (data.drop (co + 5))).1,
      co + 5 + (gammaBytes (data.drop (co + 5))).2)
  else (data.getD (co + 4) 0, co + 5)

/-- One iteration of the `_parse_chunks` loop body, in source order: an
all-zero or short tag breaks; a tag that is not ASCII (some byte above 0x7F)
advances one byte; the two mid-header truncation checks break (both are
unreachable under the loop guard `co + 8 < len`, kept from the source); an
out-of-bounds or over-1,000,000 length advances one byte; anything else is
an accepted chunk. -/
def chunkScanStep (data : List Nat) (co : Nat) : ScanStep :=
  if ((data.drop co).take 4).length < 4 ∨ (data.drop co).take 4 = [0, 0, 0, 0] then
    .brk
  else if ¬ (((data.drop co).take 4).all fun b => b < 128) then .skip1
  else if data.length ≤ co + 4 then .brk
  else if data.getD (co + 4) 0 = 255 ∧ data.length ≤ co + 8 then .brk
  else if data.length < (chunkSizeOff data co).2 + (chunkSizeOff data co).1 ∨
      1000000 < (chunkSizeOff data co).1 then .skip1
  else
    .accept ((data.drop co).take 4)
      ((data.drop (chunkSizeOff data co).2).take (chunkSizeOff data co).1)
      ((chunkSizeOff data co).2 + (chunkSizeOff data co).1)

/-- What one run of `_parse_chunks` leaves behind: the parser state, the
final `current_offset`, the `chunks_found` counter, and whether the loop
ran to completion within the given fuel (`completed = false` only on fuel
exhaustion, which `parseChunksFuel_completed` rules out at the fuel used by
`runParseChunks`). -/
structure ParseRun where
  state : ParserState
  offset : Nat
  found : Nat
  completed : Bool
deriving DecidableEq, Repr

/-- The `_parse_chunks` loop: `while current_offset < len(data) - 8` (for
Python integers this guard is `current_offset + 8 < len(data)`), stepping by
`chunkScanStep`. The `except` arm holding the 50,000-byte guard is
unreachable (see the module comment) and so has no counterpart here. -/
def parseChunksFuel (data : List Nat) : Nat → ParserState → Nat → ParseRun
  | 0, st, co =>
    if co + 8 < data.length then ⟨st, co, 0, false⟩ else ⟨st, co, 0, true⟩
  | fuel + 1, st, co =>
    if co + 8 < data.length then
      match chunkScanStep data co with
      | .brk => ⟨st, co, 0, true⟩
      | .skip1 => parseChunksFuel data fuel st (co + 1)
      | .accept tag body next =>
        let r := parseChunksFuel data fuel (parseChunk tag body st) next
        ⟨r.state, r.offset, r.found + 1, r.completed⟩
    else ⟨st, co, 0, true⟩

/-- `_parse_chunks(data, offset)` with enough fuel for any input. -/
def runParseChunks (data : List Nat) (st : ParserState) (offset : Nat) : ParseRun :=
  parseChunksFuel data (data.length + 1) st offset

/-- `bytes.find(pattern)`: index of the first occurrence of the 4-byte
pattern, if any. -/
def findPat (data pat : List Nat) : Option Nat :=
  (List.range data.length).find? fun i => (data.drop i).take 4 = pat

/-- The entry-point search of `_parse_savegame_data`: the earliest offset of
any of `VEHS`, `STNS`, `INDS`, `PLYR`, `INDY`, starting from
`earliest_chunk = len(data)`. -/
def earliestChunk (data : List Nat) : Nat :=
  [strVEHS, strSTNS, strINDS, strPLYR, strINDY].foldl
    (fun e p =>
      match findPat data p with
      | some pos => if pos < e then pos else e
      | none => e)
    data.length

/-- The starting offset `_parse_savegame_data` hands to `_parse_chunks`:
the earliest tag occurrence when one exists, else 0. -/
def savegameOffset (data : List Nat) : Nat :=
  if earliestChunk data < data.length then earliestChunk data else 0

/-- `_parse_savegame_data`: locate the starting offset and run the chunk
loop. Its `except` arm would call the nonexistent method
`_parse_alternative_format` but is unreachable because `_parse_chunks`
cannot raise (see the module comment). -/
def parseSavegameData (st : ParserState) (data : List Nat) : ParserState :=
  (runParseChunks data st (savegameOffset data)).state

/-- The error taxonomy of `_decompress_map_data`: `ValueError` for inputs
shorter than 8 bytes, `NotImplementedError` for the LZO tag `OTTD`, and the
codec's own failure for a rejected LZMA/zlib payload. -/
inductive DecompressError where
  | tooShort : DecompressError
  | lzoUnsupported : DecompressError
  | codecFailed : DecompressError
deriving DecidableEq, Repr

/-- `_decompress_map_data`: length check first, then dispatch on the
big-endian tag (`OTTX` = 0x4F545458 LZMA, `OTTZ` = 0x4F54545A zlib,
`OTTN` = 0x4F54544E pass-through, `OTTD` = 0x4F545444 unsupported, anything
else falls back to LZMA). The payload is `data[8:]` in every arm. -/
def decompressMapData (lzma zlibD : List Nat → Except Unit (List Nat))
    (data : List Nat) : Except DecompressError (List Nat) :=
  if data.length < 8 then .error .tooShort
  else
    let tag := be32At data 0
    let payload := data.drop 8
    if tag = 0x4F545458 then
      match lzma payload with
      | .ok r => .ok r
      | .error _ => .error .codecFailed
    else if tag = 0x4F54545A then
      match zlibD payload with
      | .ok r => .ok r
      | .error _ => .error .codecFailed
    else if tag = 0x4F54544E then .ok payload
    else if tag = 0x4F545444 then .error .lzoUnsupported
    else
      match lzma payload with
      | .ok r => .ok r
      | .error _ => .error .codecFailed

/-- The dict construction at the end of `parse_map_data`: the lists as they
stand plus their lengths as the `total_*` entries. -/
def snapshotOf (st : ParserState) : MapSnapshot :=
  ⟨st.map_width, st.map_height, st.vehicles, st.stations, st.industries,
    st.companies, st.vehicles.length, st.stations.length,
    st.industries.length, st.companies.length⟩

/-- `parse_map_data`: decompress, parse the savegame structure, assemble the
result dict. Any exception (only decompression can raise) is caught and the
empty dict — modelled as `none` — is returned with the state as it stood. -/
def parse_map_data (lzma zlibD : List Nat → Except Unit (List Nat))
    (st : ParserState) (data : List Nat) : ParserState × Option MapSnapshot :=
  match decompressMapData lzma zlibD data with
  | .error _ => (st, none)
  | .ok dec =>
    let st2 := parseSavegameData st dec
    (st2, some (snapshotOf st2))

/-- The `_parse_basic_data` pattern count: Python's
`for i in range(0, len(data) - 4, 4)` visits exactly the multiples of 4
with `i + 4 < len(data)`, and counts those whose little-endian 32-bit value
is below 16 with `i + 16 < len(data)`. -/
def patternCount (data : List Nat) : Nat :=
  ((List.range data.length).filter fun i =>
    i % 4 = 0 ∧ i + 4 < data.length ∧ le32At data i < 16 ∧
      i + 16 < data.length).length

/-- The records `_parse_basic_data` appends: `min(patterns // 10, 200)`
synthesized vehicles with `vehicle_type = i % 4` and `company_id = i % 8`
and the usual placeholder defaults. This method is defined in the source but
never called: the fallback arm of `_parse_savegame_data` names the
nonexistent `_parse_alternative_format` instead and is unreachable anyway. -/
def parseBasicData (data : List Nat) (vehicles : List ParsedVehicle) :
    List ParsedVehicle :=
  vehicles ++ (List.range (min (patternCount data / 10) 200)).map fun i =>
    ⟨i, i % 4, i % 8, 0, 0, 0, 0, 0, 0, 0, 0, 1950, 100, 0, 0, 0⟩

/-- The canonical little-endian base-128 continuation encoding of a length,
as described by the specification of the gamma length format ("repeatedly
read a byte, accumulate its low 7 bits left-shifted by `7 * byte_index`,
continue while the high bit is set"): emit `n % 128` with the continuation
bit 0x80 while more than 7 bits remain. Fuel-indexed (`n` itself is ample
fuel since the value at least halves each step). -/
def gammaEncodeAux : Nat → Nat → List Nat
  | 0, n => [n % 128]
  | fuel + 1, n =>
    if n < 128 then [n] else (n % 128 + 128) :: gammaEncodeAux fuel (n / 128)

/-- The continuation-byte encoder at its sufficient fuel. -/
def gammaEncode (n : Nat) : List Nat :=
  gammaEncodeAux n n

/-- A LZMA/zlib stand-in for concrete test inputs whose envelope never
reaches a codec (`OTTN` pass-through or too-short input). -/
def dummyCodec : List Nat → Except Unit (List Nat) := fun _ => .error ()

/-- The gamma loop consumes exactly a canonical continuation encoding placed
at the current position, returns its masked bytes, and those bytes decode
back to the encoded value. -/
theorem gammaEncodeAux_spec (rest : List Nat) :
    ∀ fuel n, n ≤ fuel →
      gammaBytes (gammaEncodeAux fuel n ++ rest) =
        ((gammaEncodeAux fuel n).map fun b => b % 128,
          (gammaEncodeAux fuel n).length) ∧
      gammaValue ((gammaEncodeAux fuel n).map fun b => b % 128) = n := by
  intro fuel
  induction fuel with
  | zero =>
    intro n hn
    have hn0 : n = 0 := Nat.le_zero.mp hn
    subst hn0
    simp [gammaEncodeAux, gammaBytes, gammaValue]
  | succ fuel ih =>
    intro n hn
    by_cases h : n < 128
    · have hdiv : n / 128 = 0 := Nat.div_eq_of_lt h
      have hmod : n % 128 = n := Nat.mod_eq_of_lt h
      simp [gammaEncodeAux, h, gammaBytes, gammaValue, hdiv, hmod]
    · have h128 : 128 ≤ n := Nat.le_of_not_lt h
      have hfuel : n / 128 ≤ fuel := by
        have : n / 128 < n := Nat.div_lt_self (by omega) (by omega)
        omega
      obtain ⟨ih1, ih2⟩ := ih (n / 128) hfuel
      have hhead : (n % 128 + 128) / 128 % 2 = 1 := by
        have : n % 128 < 128 := Nat.mod_lt _ (by omega)
        have : (n % 128 + 128) / 128 = 1 := by omega
        omega
      have hheadmod : (n % 128 + 128) % 128 = n % 128 := by omega
      constructor
      · simp [gammaEncodeAux, if_neg h, List.cons_append, gammaBytes,
          hhead, ih1, List.map_cons, List.length_cons, hheadmod]
      · simp only [gammaEncodeAux, if_neg h, List.map_cons, gammaValue,
          hheadmod, ih2]
        omega

/-- C7: for every position holding a canonically Gamma-encoded length
(followed by arbitrary further stream bytes), the decode loop of
`_parse_chunks` consumes exactly the encoded bytes, and re-encoding the
decoded length through the continuation-byte algorithm reproduces the
original encoded byte sequence. This is the claim restricted to canonical
encodings, the most the code supports: the decode loop also accepts
non-canonical paddings such as `[0x80, 0x00]`, which decode to a value whose
re-encoding is strictly shorter (see the counterexample). -/
theorem gamma_length_roundtrip_canonical (n : Nat) (rest : List Nat) :
    gammaEncode (gammaValue (gammaBytes (gammaEncode n ++ rest)).1) =
      gammaEncode n ∧
    (gammaBytes (gammaEncode n ++ rest)).2 = (gammaEncode n).length := by
  obtain ⟨h1, h2⟩ := gammaEncodeAux_spec rest n n le_rfl
  unfold gammaEncode
  rw [h1]
  exact ⟨by rw [h2], rfl⟩

/-- A stream whose chunk type byte (index 4) has the high bit set and is not
0xFF, followed by the non-canonical gamma length bytes `[0x80, 0x00]`. -/
def streamC7 : List Nat := [65, 65, 65, 65, 128, 128, 0]

/-- C7 counterexample: at a stream position holding a Gamma-encoded length
(type byte 0x80: high bit set, not 0xFF), the length bytes `[0x80, 0x00]`
decode to 0 through the continuation-byte loop, but re-encoding 0 gives the
single byte `[0x00]`, not the original two-byte sequence: the round-trip
claim fails as stated. -/
theorem gamma_roundtrip_fails_noncanonical :
    streamC7.getD 4 0 / 128 % 2 = 1 ∧ streamC7.getD 4 0 ≠ 255 ∧
    (gammaBytes (streamC7.drop 5)).2 = 2 ∧
    gammaValue (gammaBytes (streamC7.drop 5)).1 = 0 ∧
    gammaEncode (gammaValue (gammaBytes (streamC7.drop 5)).1) ≠
      (streamC7.drop 5).take (gammaBytes (streamC7.drop 5)).2 := by
  decide

/-- Closed form of the `_parse_vehicles_chunk` loop from any offset: one
record per stride whose 32-byte extent still leaves at least one byte of
body beyond it (`offset + 32 < len`), numbered consecutively from the
starting id. The `company >= 16` skip branch never fires since
`company = byte % 16 < 16`. -/
theorem parseVehiclesFuel_eq (data : List Nat) :
    ∀ fuel offset vid, data.length ≤ offset + fuel →
      parseVehiclesFuel data fuel offset vid =
        (List.range ((data.length - offset - 1) / 32)).map fun k =>
          mkStrideVehicle (vid + k) (data.getD (offset + 32 * k) 0 % 6)
            (data.getD (offset + 32 * k + 1) 0 % 16) := by
  intro fuel
  induction fuel with
  | zero =>
    intro offset vid hfuel
    have : (data.length - offset - 1) / 32 = 0 := by
      have : data.length - offset - 1 = 0 := by omega
      simp [this]
    simp [parseVehiclesFuel, this]
  | succ fuel ih =>
    intro offset vid hfuel
    by_cases h : offset + 32 < data.length
    · have hskip : ¬ (16 ≤ data.getD (offset + 1) 0 % 16) := by
        have := Nat.mod_lt (data.getD (offset + 1) 0) (y := 16) (by omega)
        omega
      have hcount : (data.length - offset - 1) / 32 =
          (data.length - (offset + 32) - 1) / 32 + 1 := by
        have he : data.length - offset - 1 =
            (data.length - (offset + 32) - 1) + 32 := by omega
        rw [he, Nat.add_div_right _ (by norm_num)]
      rw [parseVehiclesFuel, if_pos h, if_neg hskip,
        ih (offset + 32) (vid + 1) (by omega), hcount,
        List.range_succ_eq_map, List.map_cons, List.map_map]
      rw [List.cons_eq_cons]
      constructor
      · simp
      · apply List.map_congr_left
        intro k _
        simp only [Function.comp_apply, Nat.succ_eq_add_one]
        have e1 : vid + 1 + k = vid + (k + 1) := by omega
        have e2 : offset + 32 + 32 * k = offset + 32 * (k + 1) := by ring
        rw [e1, e2]
    · have : (data.length - offset - 1) / 32 = 0 :=
        Nat.div_eq_of_lt (by omega)
      simp [parseVehiclesFuel, if_neg h, this]

/-- The records of one `VEHS` chunk body: exactly `(len - 1) / 32` strides
(floor), the k-th built from bytes `32k` and `32k + 1`, with ids `0, 1, …`
per chunk. -/
theorem parseVehiclesNew_eq (data : List Nat) :
    parseVehiclesNew data =
      (List.range ((data.length - 1) / 32)).map fun k =>
        mkStrideVehicle k (data.getD (32 * k) 0 % 6)
          (data.getD (32 * k + 1) 0 % 16) := by
  unfold parseVehiclesNew
  rw [parseVehiclesFuel_eq data (data.length + 1) 0 0 (by omega)]
  simp

/-- C4 (amended): the `VEHS` extractor appends exactly `(L - 1) / 32`
records for a body of length `L` — the loop guard is the strict
`offset + 32 < L`, so a trailing stride that ends exactly at the body end is
also discarded, one fewer than the claimed `L / 32` when `L` is a positive
multiple of 32 — and the k-th record has `vehicle_type = byte[32k] mod 6`
and `company_id = byte[32k+1] mod 16`, with ids numbered from 0. -/
theorem vehs_extractor_records_amended (data : List Nat) :
    (parseVehiclesNew data).length = (data.length - 1) / 32 ∧
    parseVehiclesNew data =
      (List.range ((data.length - 1) / 32)).map fun k =>
        mkStrideVehicle k (data.getD (32 * k) 0 % 6)
          (data.getD (32 * k + 1) 0 % 16) := by
  refine ⟨?_, parseVehiclesNew_eq data⟩
  rw [parseVehiclesNew_eq data]
  simp

/-- C4 counterexample: a 32-byte `VEHS` body holds one complete 32-byte
stride, so the claim demands `floor(32/32) = 1` appended record, but the
strict loop guard `offset + 32 < 32` fails immediately and the extractor
appends none. -/
theorem vehs_extractor_exact_multiple_fails :
    (parseVehiclesNew (List.replicate 32 0)).length ≠
      (List.replicate 32 (0 : Nat)).length / 32 := by
  decide

/-- C5 (amended): vehicle ids are unique within the records produced from a
single `VEHS` chunk body — they are exactly `0, 1, …, n-1` — but the
counter restarts at 0 for every chunk, so a parse whose chunk stream
contains more than one `VEHS` chunk repeats ids (see the counterexample). -/
theorem vehicle_ids_nodup_single_chunk (data : List Nat) :
    ((parseVehiclesNew data).map fun v => v.vehicle_id).Nodup := by
  rw [parseVehiclesNew_eq data, List.map_map]
  have : ((fun v => v.vehicle_id) ∘ fun k =>
      mkStrideVehicle k (data.getD (32 * k) 0 % 6)
        (data.getD (32 * k + 1) 0 % 16)) = fun k => k := rfl
  rw [this]
  simpa using List.nodup_range ((data.length - 1) / 32)

/-- The 32-byte vehicle stride of the specification's synthetic envelope:
`byte[0] = 0`, `byte[1] = 3`, the rest zero. -/
def strideC6 : List Nat := 0 :: 3 :: List.replicate 30 0

/-- The synthetic envelope `b"OTTN" + b"\x00"*4 + b"VEHS" + bytes([40]) +
stride + padding`, with 8 zero bytes of padding, enough for the claimed
40-byte chunk body. -/
def envC6 : List Nat :=
  [79, 84, 84, 78] ++ [0, 0, 0, 0] ++ strVEHS ++ [40] ++ strideC6 ++
    List.replicate 8 0

/-- C6: parsing the synthetic envelope yields a snapshot with exactly one
vehicle, of `vehicle_type = TRAIN (0)` and `company_id = 3`. -/
theorem synthetic_envelope_one_train :
    ((parse_map_data dummyCodec dummyCodec initState envC6).2.map fun s =>
      s.vehicles.map fun v => (v.vehicle_id, v.vehicle_type, v.company_id)) =
      some [(0, VehicleTypeTRAIN, 3)] ∧
    ((parse_map_data dummyCodec dummyCodec initState envC6).2.map fun s =>
      s.total_vehicles) = some 1 := by
  decide

/-- C3 counterexample: on the same parser, a second `parse_map_data` call on
the byte-identical envelope returns a different snapshot — the vehicle
accumulator is initialized once in `__init__` and never cleared, so the
first call reports 1 vehicle and the second 2. -/
theorem parse_twice_not_identical :
    ((parse_map_data dummyCodec dummyCodec initState envC6).2.map fun s =>
      s.total_vehicles) = some 1 ∧
    ((parse_map_data dummyCodec dummyCodec
        (parse_map_data dummyCodec dummyCodec initState envC6).1 envC6).2.map
      fun s => s.total_vehicles) = some 2 ∧
    (parse_map_data dummyCodec dummyCodec initState envC6).2 ≠
      (parse_map_data dummyCodec dummyCodec
        (parse_map_data dummyCodec dummyCodec initState envC6).1 envC6).2 := by
  decide

/-- An uncompressed envelope whose stream holds two `VEHS` chunks, each with
a 33-byte all-zero body (one vehicle each). -/
def envC5 : List Nat :=
  [79, 84, 84, 78] ++ [0, 0, 0, 0] ++
    (strVEHS ++ [33] ++ List.replicate 33 0) ++
    (strVEHS ++ [33] ++ List.replicate 33 0)

/-- C5 counterexample: one parse call on a fresh parser over a stream with
two `VEHS` chunks produces two vehicle records both carrying id 0 — the id
counter is a per-chunk local starting at 0 — so the id is not unique within
this parse result. -/
theorem two_vehs_chunks_duplicate_ids :
    ((parse_map_data dummyCodec dummyCodec initState envC5).2.map fun s =>
      s.vehicles.map fun v => v.vehicle_id) = some [0, 0] ∧
    ¬ ([0, 0] : List Nat).Nodup := by
  decide

/-- An uncompressed envelope whose decompressed stream is 100 zero bytes:
no recognizable chunk tag anywhere. -/
def envC1 : List Nat := [79, 84, 84, 78] ++ [0, 0, 0, 0] ++ List.replicate 100 0

/-- C1 (code bug): on a decompressed stream with no recognizable chunk tags,
the chunk scan locates zero chunks, yet the snapshot holds 0 vehicles — the
Fallback Estimator `_parse_basic_data` is never invoked. The `except` arm of
`_parse_savegame_data` names the nonexistent method
`_parse_alternative_format` (an `AttributeError` if ever reached) and is
unreachable anyway because finding zero chunks raises nothing; the claimed
estimate for this stream would have been
`min(pattern_count // 10, 200) = min(21 // 10, 200) = 2` vehicles, as
`_parse_basic_data` itself would produce. -/
theorem fallback_estimator_never_runs :
    ((parse_map_data dummyCodec dummyCodec initState envC1).2.map fun s =>
      s.total_vehicles) = some 0 ∧
    patternCount (List.replicate 100 0) = 21 ∧
    (parseBasicData (List.replicate 100 0) []).length =
      min (patternCount (List.replicate 100 0) / 10) 200 ∧
    min (patternCount (List.replicate 100 0) / 10) 200 = 2 := by
  decide

/-- C9: an input blob shorter than 8 bytes makes `_decompress_map_data`
raise its format `ValueError` before any tag read or codec call, and
`parse_map_data` catches it and returns the empty dict with the parser state
untouched — quantification over the codec functions shows neither is
invoked, and the unchanged state shows no chunk scan or extraction ran. -/
theorem short_input_format_error (lzma zlibD : List Nat → Except Unit (List Nat))
    (st : ParserState) (data : List Nat) (h : data.length < 8) :
    decompressMapData lzma zlibD data = .error .tooShort ∧
    parse_map_data lzma zlibD st data = (st, none) := by
  have hdec : decompressMapData lzma zlibD data = .error .tooShort := by
    unfold decompressMapData
    rw [if_pos h]
  refine ⟨hdec, ?_⟩
  unfold parse_map_data
  rw [hdec]

/-- Witness for C9 at the 3-byte input `[1, 2, 3]`. -/
theorem short_input_format_error_witness :
    ([1, 2, 3] : List Nat).length < 8 ∧
    decompressMapData dummyCodec dummyCodec [1, 2, 3] =
      .error DecompressError.tooShort :=
  ⟨by decide,
    (short_input_format_error dummyCodec dummyCodec initState [1, 2, 3]
      (by decide)).1⟩

/-- C10: every snapshot `parse_map_data` returns (the non-empty-dict case)
reports `total_*` counts equal to the lengths of the corresponding
sequences in the same result, by construction of the result dict. -/
theorem snapshot_totals_match_lengths
    (lzma zlibD : List Nat → Except Unit (List Nat)) (st : ParserState)
    (data : List Nat) (snap : MapSnapshot)
    (h : (parse_map_data lzma zlibD st data).2 = some snap) :
    snap.total_vehicles = snap.vehicles.length ∧
    snap.total_stations = snap.stations.length ∧
    snap.total_industries = snap.industries.length ∧
    snap.total_companies = snap.companies.length := by
  unfold parse_map_data at h
  cases hdec : decompressMapData lzma zlibD data with
  | error e => rw [hdec] at h; simp at h
  | ok dec =>
    rw [hdec] at h
    simp only [Option.some.injEq] at h
    subst h
    exact ⟨rfl, rfl, rfl, rfl⟩

/-- The 8-byte minimal `OTTN` envelope (empty decompressed stream). -/
def envMin : List Nat := [79, 84, 84, 78, 0, 0, 0, 0]

/-- The snapshot the minimal envelope produces: all collections empty. -/
def snapMin : MapSnapshot := ⟨0, 0, [], [], [], [], 0, 0, 0, 0⟩

/-- Witness for C10 at the minimal uncompressed envelope. -/
theorem snapshot_totals_match_lengths_witness :
    (parse_map_data dummyCodec dummyCodec initState envMin).2 = some snapMin ∧
    snapMin.total_vehicles = snapMin.vehicles.length :=
  ⟨by decide,
    (snapshot_totals_match_lengths dummyCodec dummyCodec initState envMin
      snapMin (by decide)).1⟩

/-- Every branch of the header-length computation places the body at least
5 bytes past the tag offset. -/
theorem chunkSizeOff_snd_ge (data : List Nat) (co : Nat) :
    co + 5 ≤ (chunkSizeOff data co).2 := by
  unfold chunkSizeOff
  split_ifs <;> simp

/-- An accepted chunk advances the scan offset by at least the 5-byte
minimal header. -/
theorem chunkScanStep_accept_next (data : List Nat) (co : Nat)
    {t b : List Nat} {next : Nat}
    (h : chunkScanStep data co = .accept t b next) : co + 5 ≤ next := by
  have hs := chunkSizeOff_snd_ge data co
  unfold chunkScanStep at h
  split_ifs at h <;>
    first
      | (simp only [ScanStep.accept.injEq] at h
         obtain ⟨-, -, h3⟩ := h
         omega)
      | exact absurd h (by simp)

/-- When the loop guard `current_offset < len(data) - 8` already fails, the
loop body never runs, whatever the fuel. -/
theorem parseChunksFuel_guard_false (data : List Nat) (fuel co : Nat)
    (st : ParserState) (h : ¬ (co + 8 < data.length)) :
    parseChunksFuel data fuel st co = ⟨st, co, 0, true⟩ := by
  cases fuel with
  | zero => simp [parseChunksFuel, if_neg h]
  | succ fuel => simp [parseChunksFuel, if_neg h]

/-- Fuel one past the stream length always completes the `_parse_chunks`
loop: each iteration strictly advances the offset and the guard needs
`offset + 8 < len`. -/
theorem parseChunksFuel_completed (data : List Nat) :
    ∀ fuel co st, data.length ≤ co + fuel →
      (parseChunksFuel data fuel st co).completed = true := by
  intro fuel
  induction fuel with
  | zero =>
    intro co st hfuel
    rw [parseChunksFuel_guard_false data 0 co st (by omega)]
  | succ fuel ih =>
    intro co st hfuel
    by_cases hg : co + 8 < data.length
    · rw [parseChunksFuel]
      rw [if_pos hg]
      cases hstep : chunkScanStep data co with
      | brk => rfl
      | skip1 => exact ih (co + 1) st (by omega)
      | accept t b next =>
        have hnext := chunkScanStep_accept_next data co hstep
        simpa using ih next (parseChunk t b st) (by omega)
    · rw [parseChunksFuel_guard_false data _ co st hg]

/-- C2 (amended): the chunk scan terminates on every input — within
`len + 1` iterations, because the examined offset strictly increases and the
loop guard bounds it by the stream length. The 50,000-byte single-stepping
guard of the source sits in an `except` arm that ordinary single-byte
stepping never reaches, so it is not what enforces termination, and
single-byte stepping can in fact run far past 50,000 bytes (see the
counterexample). -/
theorem chunk_scan_always_terminates (data : List Nat) (st : ParserState)
    (offset : Nat) : (runParseChunks data st offset).completed = true :=
  parseChunksFuel_completed data (data.length + 1) offset st (by omega)

/-- On an all-0x80 buffer, every tag read fails the ASCII decode, so each
iteration advances the offset by exactly one byte until the loop guard
fails at `len - 8`, with no chunk ever accepted and no abort at 50,000. -/
theorem parseChunksFuel_replicate128 (n : Nat) :
    ∀ fuel co st, n ≤ co + fuel → co + 8 < n →
      parseChunksFuel (List.replicate n 128) fuel st co =
        ⟨st, n - 8, 0, true⟩ := by
  intro fuel
  induction fuel with
  | zero => intro co st hfuel hco; omega
  | succ fuel ih =>
    intro co st hfuel hco
    have hlen : (List.replicate n 128).length = n := List.length_replicate n 128
    have htag : ((List.replicate n 128).drop co).take 4 =
        List.replicate 4 128 := by
      rw [List.drop_replicate, List.take_replicate]
      congr 1
      omega
    have hstep : chunkScanStep (List.replicate n 128) co = .skip1 := by
      unfold chunkScanStep
      rw [htag]
      rw [if_neg (by decide), if_pos (by decide)]
    rw [parseChunksFuel, if_pos (by omega : co + 8 < (List.replicate n 128).length),
      hstep]
    by_cases hg : co + 1 + 8 < n
    · exact ih (co + 1) st (by omega) hg
    · rw [parseChunksFuel_guard_false _ fuel (co + 1) st (by omega)]
      have : co + 1 = n - 8 := by omega
      rw [this]

/-- C2 counterexample: on a 60,000-byte buffer of 0x80 noise, the scan
accepts zero chunks and single-byte-steps its examined offset all the way to
59,992 — more than 50,000 bytes past its starting offset 0 — before
terminating, contradicting the claimed abort at the 50,000-byte walk bound. -/
theorem chunk_scan_oversteps_50000 :
    (runParseChunks (List.replicate 60000 128) initState 0).found = 0 ∧
    (runParseChunks (List.replicate 60000 128) initState 0).offset = 59992 ∧
    50000 < (runParseChunks (List.replicate 60000 128) initState 0).offset := by
  have h : runParseChunks (List.replicate 60000 128) initState 0 =
      ⟨initState, 59992, 0, true⟩ := by
    unfold runParseChunks
    rw [List.length_replicate]
    exact parseChunksFuel_replicate128 60000 60001 0 initState (by omega) (by omega)
  rw [h]
  exact ⟨rfl, rfl, by norm_num⟩

/-- C8: at any stream position whose 4-byte tag is readable (full length,
ASCII, not all-zero) but whose header decodes to a body length that
overflows the stream or exceeds the 1,000,000-byte cap — in particular a
claimed length of 2,000,000 even inside an arbitrarily large buffer — the
scanner rejects the record with no error, advances its offset by exactly
one byte, and continues the scan from there. -/
theorem invalid_length_skips_one_byte (data : List Nat) (co : Nat)
    (hguard : co + 8 < data.length)
    (hz : (data.drop co).take 4 ≠ [0, 0, 0, 0])
    (hascii : (((data.drop co).take 4).all fun b => b < 128) = true)
    (hbad : data.length < (chunkSizeOff data co).2 + (chunkSizeOff data co).1 ∨
      1000000 < (chunkSizeOff data co).1) :
    chunkScanStep data co = .skip1 ∧
    ∀ fuel st, parseChunksFuel data (fuel + 1) st co =
      parseChunksFuel data fuel st (co + 1) := by
  have hlen4 : ((data.drop co).take 4).length = 4 := by
    rw [List.length_take, List.length_drop]
    omega
  have hstep : chunkScanStep data co = .skip1 := by
    unfold chunkScanStep
    rw [if_neg (by rw [hlen4]; simp [hz]), if_neg (by simp [hascii]),
      if_neg (by omega : ¬ data.length ≤ co + 4),
      if_neg (by rintro ⟨-, h8⟩; omega), if_pos hbad]
  refine ⟨hstep, fun fuel st => ?_⟩
  rw [parseChunksFuel, if_pos hguard, hstep]

/-- A stream holding a `VEHS` tag whose extended (0xFF) header claims a
2,000,000-byte body: `2000000 = 0x1E8480`, little-endian
`[0x80, 0x84, 0x1E, 0x00]`. -/
def dataC8 : List Nat := strVEHS ++ [255, 128, 132, 30, 0]

/-- Witness for C8: at offset 0 of `dataC8` the header decodes to body
length 2,000,000, over the cap, and the scanner steps one byte. -/
theorem invalid_length_skips_one_byte_witness :
    0 + 8 < dataC8.length ∧ (chunkSizeOff dataC8 0).1 = 2000000 ∧
    chunkScanStep dataC8 0 = ScanStep.skip1 :=
  ⟨by decide, by decide,
    (invalid_length_skips_one_byte dataC8 0 (by decide) (by decide) (by decide)
      (by decide)).1⟩

/-- The vehicle records the chunk loop appends while scanning from a given
offset, independent of the parser state: the concatenation of
`_parse_vehicles_chunk` output over the accepted `VEHS` chunks. -/
def vehDelta (data : List Nat) : Nat → Nat → List ParsedVehicle
  | 0, _ => []
  | fuel + 1, co =>
    if co + 8 < data.length then
      match chunkScanStep data co with
      | .brk => []
      | .skip1 => vehDelta data fuel (co + 1)
      | .accept tag body next =>
        (if tag = strVEHS then parseVehiclesNew body else []) ++
          vehDelta data fuel next
    else []

/-- `_parse_map_chunk` never touches the vehicle list. -/
theorem parseMapChunk_vehicles (data : List Nat) (st : ParserState) :
    (parseMapChunk data st).vehicles = st.vehicles := by
  unfold parseMapChunk
  split <;> rfl

/-- `_parse_chunk` appends to the vehicle list exactly the records of a
`VEHS` chunk and otherwise leaves it alone. -/
theorem parseChunk_vehicles (tag body : List Nat) (st : ParserState) :
    (parseChunk tag body st).vehicles =
      st.vehicles ++ (if tag = strVEHS then parseVehiclesNew body else []) := by
  unfold parseChunk
  split_ifs with h1 h2 h3 h4 h5 <;>
    simp [parseMapChunk_vehicles, h1]

/-- The chunk loop's effect on the vehicle list is pure accumulation: the
records appended depend only on the stream and the starting offset, never
on the vehicles already held. -/
theorem parseChunksFuel_vehicles (data : List Nat) :
    ∀ fuel co st, (parseChunksFuel data fuel st co).state.vehicles =
      st.vehicles ++ vehDelta data fuel co := by
  intro fuel
  induction fuel with
  | zero =>
    intro co st
    have hstate : (parseChunksFuel data 0 st co).state = st := by
      unfold parseChunksFuel
      split <;> rfl
    rw [hstate]
    simp [vehDelta]
  | succ fuel ih =>
    intro co st
    by_cases hg : co + 8 < data.length
    · rw [parseChunksFuel, vehDelta, if_pos hg, if_pos hg]
      cases hstep : chunkScanStep data co with
      | brk => simp
      | skip1 => exact ih (co + 1) st
      | accept t b next =>
        simp only []
        rw [ih next (parseChunk t b st), parseChunk_vehicles,
          List.append_assoc]
    · rw [parseChunksFuel_guard_false data _ co st hg, vehDelta, if_neg hg]
      simp

/-- C3 (amended): the parser is not stateless across calls — its vehicle
accumulator is initialized once in `__init__` and never cleared, so each
`parse_map_data` call leaves behind its previous vehicles followed by
exactly the records the input alone produces (the records a fresh parser
would produce). Two successive calls on the same parser therefore return
value-identical snapshots only when the input contributes no vehicles; on
any input yielding at least one vehicle they differ (see the
counterexample). -/
theorem parse_map_data_accumulates
    (lzma zlibD : List Nat → Except Unit (List Nat)) (st : ParserState)
    (data : List Nat) :
    (parse_map_data lzma zlibD st data).1.vehicles =
      st.vehicles ++ (parse_map_data lzma zlibD initState data).1.vehicles := by
  unfold parse_map_data
  cases hdec : decompressMapData lzma zlibD data with
  | error e => simp [initState]
  | ok dec =>
    simp only []
    unfold parseSavegameData runParseChunks
    rw [parseChunksFuel_vehicles, parseChunksFuel_vehicles]
    simp [initState]
